/-
Verification of the retroboard Application Manager (src/manager.py) against
its natural-language specification.

The manager is shallowly embedded: Python dicts become ordered association
lists (`Config`), JSON values become the inductive `Json`, the manager's
mutable fields become the record `MState`, and each method becomes a pure
Lean function mirroring the Python control flow.  Python's value mutation is
modelled with value semantics (dict `.copy()` at capture sites makes this
faithful for the properties below; object aliasing is not observable in any
claim settled here).  Exceptions raised by program instances (`setup()`,
`loop()`) are modelled by explicit Boolean oracles passed to each transition;
exceptions the manager does not catch surface as `Option.none`.
-/
import Mathlib

namespace Retro

/-- JSON values, modelling the Python values that flow through `json.dump` /
`json.load` and the configuration dictionaries. Numbers are modelled as
integers (the configs and settings exercised here are integral). -/
inductive Json where
  | null : Json
  | bool (b : Bool) : Json
  | num (n : Int) : Json
  | str (s : String) : Json
  | arr (xs : List Json) : Json
  | obj (kvs : List (String × Json)) : Json

/-- A Python dict with string keys, as an ordered association list
(insertion order, unique keys — the operations below preserve both). -/
abbrev Config := List (String × Json)

/-- Python `d.get(k)` / `d[k]` lookup. -/
def dget (d : Config) (k : String) : Option Json :=
  match d with
  | [] => none
  | (k', v) :: rest => if k' = k then some v else dget rest k

/-- Python `k in d`. -/
def dmember (d : Config) (k : String) : Bool :=
  (dget d k).isSome

/-- Python `d[k] = v`: replace in place if the key exists, else append
(Python dict insertion-order semantics). -/
def dset (d : Config) (k : String) (v : Json) : Config :=
  match d with
  | [] => [(k, v)]
  | (k', v') :: rest => if k' = k then (k, v) :: rest else (k', v') :: dset rest k v

/-- Python `base.update(upd)`: key-wise overwrite of `base` by `upd`. -/
def dmerge (base upd : Config) : Config :=
  upd.foldl (fun acc kv => dset acc kv.1 kv.2) base

/-- One entry of the carousel playlist, a well-formed `{app: str, duration: int}`
dictionary (`ApplicationManager.carousel_apps` elements). -/
structure CEntry where
  app : String
  duration : Int
deriving DecidableEq, Repr

/-- A live program instance (`MatrixApplication`, src/apps/base.py): its
mutable `config` dict and the cooperative `_stop_flag`.  `get_config()`
returns (a copy of) `config`; `update_config(key, value)` sets one key;
`stop()` sets the flag.  Frame drawing (`loop`) has no manager-visible
state effect unless it raises, which the transition oracles model. -/
structure AppInstance where
  config : Config
  stopFlag : Bool

/-- The `ApplicationManager`'s mutable fields (src/manager.py `__init__`),
plus `driver_brightness` for the display driver's brightness register and
`disk` for the parsed contents of the state file (`none` = file absent).
`socketio` emission has no state effect and is omitted. -/
structure MState where
  current_app : Option AppInstance
  current_app_name : Option String
  available_apps : List String
  app_configs : List (String × Config)
  settings : Config
  carousel_enabled : Bool
  carousel_apps : List CEntry
  carousel_index : Int
  carousel_timer : Int
  last_carousel_time : Int
  running : Bool
  driver_brightness : Int
  disk : Option Json

/-- Embeds `HardwareDriver.set_brightness` (src/drivers/matrix.py:327): stores the
raw value, no clamping. -/
def hwSetBrightness (b : Int) : Int := b

/-- Embeds `SimulatedDriver.set_brightness` (src/drivers/matrix.py:532):
`max(0, min(100, brightness))`. -/
def simSetBrightness (b : Int) : Int := max 0 (min 100 b)

/-- Python `app_configs[name]` lookup. -/
def cget (d : List (String × Config)) (k : String) : Option Config :=
  match d with
  | [] => none
  | (k', v) :: rest => if k' = k then some v else cget rest k

/-- Python `app_configs[name] = cfg` with Python dict in-place-update semantics. -/
def cset (d : List (String × Config)) (k : String) (v : Config) :
    List (String × Config) :=
  match d with
  | [] => [(k, v)]
  | (k', v') :: rest => if k' = k then (k, v) :: rest else (k', v') :: cset rest k v

/-- Python `dict.get(app_name, {})` on `app_configs`
(`ApplicationManager.get_app_config`, src/manager.py:414-424). -/
def get_app_config (st : MState) (name : String) : Config :=
  match cget st.app_configs name with
  | some c => c
  | none => []

/-- Encoding of a `CEntry` as the JSON object `{app: ..., duration: ...}` as it appears in
the persisted carousel `apps` list. -/
def encodeCEntry (e : CEntry) : Json :=
  Json.obj [("app", Json.str e.app), ("duration", Json.num e.duration)]

/-- The dictionary `save_state` builds and `json.dump`s
(src/manager.py:395-404). -/
def encodeState (st : MState) : Json :=
  Json.obj
    [ ("last_app",
        match st.current_app_name with
        | some n => Json.str n
        | none => Json.null),
      ("app_configs", Json.obj (st.app_configs.map fun nc => (nc.1, Json.obj nc.2))),
      ("settings", Json.obj st.settings),
      ("carousel", Json.obj
        [ ("enabled", Json.bool st.carousel_enabled),
          ("apps", Json.arr (st.carousel_apps.map encodeCEntry)),
          ("index", Json.num st.carousel_index) ]) ]

/-- Embeds `ApplicationManager.save_state` on its success path: the serialized
snapshot replaces the file contents; no in-memory field changes.
(The byte-level write, including the failure path, is modelled separately
by `save_state_write`.) -/
def save_state (st : MState) : MState :=
  { st with disk := some (encodeState st) }

/-- Embeds `ApplicationManager.stop_current_app(save_state=...)`
(src/manager.py:110-141).  With an active instance: capture its config into
`app_configs`, call `stop()`/`cleanup()` (any exception there is caught and
only logged), then in `finally` either clear both fields and persist
(user-initiated stop) or clear only the instance (shutdown/crash path).
With no active instance the method does nothing at all. -/
def stop_current_app (st : MState) (save : Bool) : MState :=
  match st.current_app with
  | none => st
  | some app =>
    let st1 :=
      match st.current_app_name with
      | some n => { st with app_configs := cset st.app_configs n app.config }
      | none => st
    if save then
      save_state { st1 with current_app := none, current_app_name := none }
    else
      { st1 with current_app := none }

/-- Embeds `ApplicationManager.start_app(name, config)` (src/manager.py:72-108).
`setupOk` is the oracle for whether `app_class(driver, config)` +
`setup()` succeed; on failure both `current_app` and `current_app_name`
are cleared and `False` is returned. -/
def start_app (st : MState) (name : String) (cfg : Config) (setupOk : Bool) :
    MState × Bool :=
  if name ∈ st.available_apps then
    let st1 := if st.current_app.isSome then stop_current_app st false else st
    if setupOk then
      ({ st1 with current_app := some ⟨cfg, false⟩, current_app_name := some name },
       true)
    else
      ({ st1 with current_app := none, current_app_name := none }, false)
  else
    (st, false)

/-- Embeds `ApplicationManager.switch_app` (src/manager.py:143-160): `start_app`,
then on success capture the new instance's config and persist. -/
def switch_app (st : MState) (name : String) (cfg : Config) (setupOk : Bool) :
    MState × Bool :=
  let (st1, success) := start_app st name cfg setupOk
  if success then
    let st2 :=
      match st1.current_app_name, st1.current_app with
      | some n, some app => { st1 with app_configs := cset st1.app_configs n app.config }
      | _, _ => st1
    (save_state st2, true)
  else
    (st1, false)

/-- Embeds `ApplicationManager.get_current_app_name` (src/manager.py:162-164). -/
def get_current_app_name (st : MState) : Option String :=
  st.current_app_name

/-- The command dictionaries the API enqueues, as the tagged variants the
dispatcher in `process_commands` distinguishes by their `action` field
(well-formed shapes; the transport layer validates shape before enqueue). -/
inductive Command where
  | switch (app : String) (config : Config)
  | stop
  | config (key : String) (value : Json)
  | update_app_config (app : String) (config : Config)
  | settings (brightness : Int)
  | carousel (enabled : Bool) (apps : List CEntry)
  | quit

/-- One iteration of the dispatch body of `ApplicationManager.process_commands`
(src/manager.py:170-264).  `drv` is the driver's `set_brightness` transfer
function, `now` the value of `time.time()`, `setupOk` the oracle for any
`start_app` performed while handling the command. -/
def process_command (drv : Int → Int) (now : Int) (setupOk : Bool)
    (st : MState) (cmd : Command) : MState :=
  match cmd with
  | .switch app cfg => (switch_app st app cfg setupOk).1
  | .stop => stop_current_app st true
  | .config key value =>
    match st.current_app with
    | none => st
    | some app =>
      let app' : AppInstance := { app with config := dset app.config key value }
      let st1 := { st with current_app := some app' }
      let st2 :=
        match st1.current_app_name with
        | some n => { st1 with app_configs := cset st1.app_configs n app'.config }
        | none => st1
      save_state st2
  | .update_app_config app cfg =>
    if app ∈ st.available_apps then
      let existing := match cget st.app_configs app with
        | some c => c
        | none => []
      let merged := dmerge existing cfg
      let st1 := { st with app_configs := cset st.app_configs app merged }
      let st2 :=
        if st1.current_app_name = some app then
          match st1.current_app with
          | some a =>
            { st1 with current_app := some { a with config := dmerge a.config cfg } }
          | none => st1
        else st1
      save_state st2
    else st
  | .settings b =>
    let st1 := { st with driver_brightness := drv b,
                         settings := dset st.settings "brightness" (Json.num b) }
    save_state st1
  | .carousel en apps =>
    let st1 := { st with carousel_enabled := en, carousel_apps := apps,
                         carousel_index := 0, carousel_timer := 0,
                         last_carousel_time := now }
    let st2 :=
      if en then
        match apps with
        | [] => st1
        | e :: _ => (start_app st1 e.app (get_app_config st1 e.app) setupOk).1
      else st1
    save_state st2
  | .quit => { st with running := false }

/-- Draining the whole queue: `process_commands` applies each queued command
in FIFO order (any exception inside one command's handler is caught and the
drain continues; the handlers modelled here do not raise). -/
def process_commands (drv : Int → Int) (now : Int) (setupOk : Bool)
    (st : MState) (cmds : List Command) : MState :=
  cmds.foldl (process_command drv now setupOk) st

/-- Python `lst[i]` indexing with negative-index support;
`none` models `IndexError`. -/
def pyIdx (l : List CEntry) (i : Int) : Option CEntry :=
  if 0 ≤ i ∧ i < l.length then l.get? i.toNat
  else if -(l.length : Int) ≤ i ∧ i < 0 then l.get? (l.length + i).toNat
  else none

/-- The carousel-rotation step of the run loop (src/manager.py:285-309),
evaluated once per tick after the command drain.  `none` models an uncaught
`IndexError` from `carousel_apps[carousel_index]` (the run loop's only
handler is for `KeyboardInterrupt`, so it would terminate the loop). -/
def carousel_tick (now : Int) (setupOk : Bool) (st : MState) : Option MState :=
  if st.carousel_enabled ∧ st.carousel_apps ≠ [] then
    match pyIdx st.carousel_apps st.carousel_index with
    | none => none
    | some cur =>
      let elapsed := now - st.last_carousel_time
      if cur.duration ≤ elapsed then
        let idx := (st.carousel_index + 1) % (st.carousel_apps.length : Int)
        match pyIdx st.carousel_apps idx with
        | none => none
        | some nxt =>
          let st1 := { st with carousel_index := idx }
          let cfg := get_app_config st1 nxt.app
          let st2 := (start_app st1 nxt.app cfg setupOk).1
          some { st2 with last_carousel_time := now }
      else some st
  else some st

/-- The advance step of the run loop (src/manager.py:311-321): run one
`loop()` iteration of the active program.  `loopRaises` is the oracle for
`loop()` raising; the handler logs and calls `stop_current_app()` (with the
default `save_state=False`).  A successful `loop()` draws a frame and has no
manager-visible state effect. -/
def advance_tick (st : MState) (loopRaises : Bool) : MState :=
  match st.current_app with
  | none => st
  | some _ => if loopRaises then stop_current_app st false else st

/-- One full iteration of the `run` while-loop: drain commands, evaluate the
carousel, advance the active program. -/
def run_tick (drv : Int → Int) (now : Int) (setupOk : Bool)
    (cmds : List Command) (loopRaises : Bool) (st : MState) : Option MState :=
  let st1 := process_commands drv now setupOk st cmds
  match carousel_tick now setupOk st1 with
  | none => none
  | some st2 => some (advance_tick st2 loopRaises)

/-- The `finally` block of `ApplicationManager.run` (src/manager.py:325-336):
on loop termination with a program active, capture its config, persist with
`last_app` preserved, then clean up without clearing the name. -/
def shutdown_finalize (st : MState) : MState :=
  match st.current_app with
  | none => st
  | some app =>
    let st1 :=
      match st.current_app_name with
      | some n => save_state { st with app_configs := cset st.app_configs n app.config }
      | none => st
    stop_current_app st1 false

/-- Decoding of one persisted carousel playlist entry as the code consumes
it: `entry["app"]` (a missing or non-string `"app"` is outside the
well-formed domain; Python would defer a `KeyError` to the rotation that
touches it) and `entry.get("duration", 10)` (the default `10` is the one in
src/manager.py:291). -/
def decodeCEntry (j : Json) : CEntry :=
  { app :=
      match j with
      | Json.obj kvs =>
        match dget kvs "app" with
        | some (Json.str s) => s
        | _ => ""
      | _ => "",
    duration :=
      match j with
      | Json.obj kvs =>
        match dget kvs "duration" with
        | some (Json.num n) => n
        | _ => 10
      | _ => 10 }

/-- A parsed JSON value used where the code expects a dict (values written
by `save_state` are always objects; a non-object here is outside the
modelled well-formed domain). -/
def asObj (j : Json) : Config :=
  match j with
  | Json.obj c => c
  | _ => []

/-- The persisted `app_configs` object as the code consumes it: a mapping
from program name to its (object-valued) configuration. -/
def decodeConfigs (j : Json) : List (String × Config) :=
  match j with
  | Json.obj cs => cs.map fun nc => (nc.1, asObj nc.2)
  | _ => []

/-- Embeds `ApplicationManager.load_state` (src/manager.py:347-388).  `st.disk =
none` is the missing-file path (`return None, {}`).  A present file holds
parsed JSON; a non-object top level makes every `state.get` fail and is the
caught-exception path.  Returns the updated manager (carousel fields,
settings and driver brightness are mutated on `self`) together with the
returned `(last_app, app_configs)` pair. -/
def load_state (drv : Int → Int) (now : Int) (st : MState) :
    MState × Option String × List (String × Config) :=
  match st.disk with
  | none => (st, none, [])
  | some (Json.obj kvs) =>
    let lastApp : Option String :=
      match dget kvs "last_app" with
      | some (Json.str s) => some s
      | _ => none
    let appConfigs : List (String × Config) :=
      match dget kvs "app_configs" with
      | some j => decodeConfigs j
      | none => []
    let settings : Config :=
      match dget kvs "settings" with
      | some j => asObj j
      | none => []
    let carousel : Config :=
      match dget kvs "carousel" with
      | some j => asObj j
      | none => []
    let st1 :=
      { st with
        carousel_enabled :=
          match dget carousel "enabled" with
          | some (Json.bool b) => b
          | _ => false,
        carousel_apps :=
          match dget carousel "apps" with
          | some (Json.arr xs) => xs.map decodeCEntry
          | _ => [],
        carousel_index :=
          match dget carousel "index" with
          | some (Json.num n) => n
          | _ => 0,
        last_carousel_time := now }
    let st2 :=
      if dmember settings "brightness" then
        { st1 with
          driver_brightness :=
            drv (match dget settings "brightness" with
                 | some (Json.num n) => n
                 | _ => 0),
          settings := settings }
      else st1
    (st2, lastApp, appConfigs)
  | some _ => (st, none, [])

/-- Embeds `ApplicationManager.__init__` (src/manager.py:33-59) together with the
driver's initial state (`SimulatedDriver.__init__` sets brightness 100,
src/drivers/matrix.py:420) and the given state-file contents. -/
def init_state (now : Int) (disk : Option Json) : MState :=
  { current_app := none, current_app_name := none, available_apps := [],
    app_configs := [], settings := [], carousel_enabled := false,
    carousel_apps := [], carousel_index := 0, carousel_timer := 0,
    last_carousel_time := now, running := false, driver_brightness := 100,
    disk := disk }

/-- Embeds `ApplicationManager.register_app` (src/manager.py:61-70): dict key
insertion into `available_apps`. -/
def register_app (st : MState) (name : String) : MState :=
  if name ∈ st.available_apps then st
  else { st with available_apps := st.available_apps ++ [name] }

/-- The startup sequence of `main` (src/main.py:75-126) with
`--ignore-state` absent: construct the manager, load persisted state, adopt
the saved configs, register the discovered apps, pick the program to start
(saved state first, then a non-default `--app` argument, then the first
registered app) and start it with its remembered config.  `argsApp` is the
`--app` argument (default `"clock"`); `if last_app` is Python truthiness,
false for the empty string. -/
def main_startup (drv : Int → Int) (now : Int) (disk : Option Json)
    (apps : List String) (argsApp : String) (setupOk : Bool) : MState :=
  let p := load_state drv now (init_state now disk)
  let st2 := { p.1 with app_configs := p.2.2 }
  let st3 := apps.foldl register_app st2
  match apps with
  | [] => st3
  | a0 :: _ =>
    let fromState : Option String :=
      match p.2.1 with
      | some la => if la ≠ "" ∧ la ∈ apps then some la else none
      | none => none
    let chosen : Option String :=
      match fromState with
      | some a => some a
      | none =>
        if argsApp ≠ "clock" then
          (if argsApp ∈ apps then some argsApp else none)
        else none
    let toStart := match chosen with
      | some a => a
      | none => a0
    (start_app st3 toStart (get_app_config st3 toStart) setupOk).1

mutual
/-- Serialization of a JSON value to the character stream `json.dump` emits
(string escaping and the `indent=2` whitespace are abstracted; only the
sequential left-to-right emission matters for the write model). -/
def render : Json → String
  | Json.null => "null"
  | Json.bool b => cond b "true" "false"
  | Json.num n => toString n
  | Json.str s => "\"" ++ s ++ "\""
  | Json.arr xs => "[" ++ renderArr xs ++ "]"
  | Json.obj kvs => "\x7b" ++ renderObj kvs ++ "\x7d"

def renderArr : List Json → String
  | [] => ""
  | [x] => render x
  | x :: y :: rest => render x ++ "," ++ renderArr (y :: rest)

def renderObj : List (String × Json) → String
  | [] => ""
  | [kv] => "\"" ++ kv.1 ++ "\":" ++ render kv.2
  | kv :: kv' :: rest =>
    "\"" ++ kv.1 ++ "\":" ++ render kv.2 ++ "," ++ renderObj (kv' :: rest)
end

/-- The write performed by `save_state` (src/manager.py:406-407) at the file
level: `open(self.state_file, "w")` truncates the file, then `json.dump`
streams the serialized snapshot into it.  `budget` is how many characters
the stream accepts before an exception (a full write when `budget` covers
the payload); the `except` clause only logs, so on failure the truncated
prefix is what remains on disk.  Returns (manager state, file contents,
success): `save_state` touches no in-memory field either way. -/
def save_state_write (st : MState) (budget : Nat) :
    MState × List Char × Bool :=
  let payload := (render (encodeState st)).data
  if payload.length ≤ budget then (st, payload, true)
  else (st, payload.take budget, false)

/-- The `last_app` field of the snapshot on disk, when a parseable snapshot
is present. -/
def diskLastApp (st : MState) : Option Json :=
  match st.disk with
  | some (Json.obj kvs) => dget kvs "last_app"
  | _ => none

/-- The spec's CarouselState invariant: if the carousel is enabled with a
non-empty playlist, the current index is a valid index into the playlist. -/
def carousel_inv (st : MState) : Prop :=
  st.carousel_enabled = true → st.carousel_apps ≠ [] →
  0 ≤ st.carousel_index ∧ st.carousel_index < (st.carousel_apps.length : Int)

/-- Valid global settings per the spec's data model: either still the empty
default or containing the `brightness` key. -/
def valid_settings (s : Config) : Prop :=
  s = [] ∨ dmember s "brightness" = true

/-- A concrete manager state used to exhibit the difference between a
carousel rotation and a `Switch` dispatch: playlist `[a, b]`, both
registered, rotation due (`now = 5`, entry duration 1). -/
def exC2 : MState :=
  { current_app := some ⟨[], false⟩, current_app_name := some "a",
    available_apps := ["a", "b"], app_configs := [], settings := [],
    carousel_enabled := true,
    carousel_apps := [⟨"a", 1⟩, ⟨"b", 1⟩],
    carousel_index := 0, carousel_timer := 0, last_carousel_time := 0,
    running := true, driver_brightness := 100, disk := none }

/-- A concrete post-crash manager state: no live instance, but
`current_app_name` still set (exactly what `stop_current_app()` leaves
behind after a `loop()` crash). -/
def exC3 : MState :=
  { current_app := none, current_app_name := some "clock",
    available_apps := ["clock"], app_configs := [], settings := [],
    carousel_enabled := false, carousel_apps := [],
    carousel_index := 0, carousel_timer := 0, last_carousel_time := 0,
    running := true, driver_brightness := 100, disk := none }

/-- A concrete state file carrying an enabled carousel whose persisted
`index` (5) is out of range for its one-entry playlist. -/
def exC5file : Json :=
  Json.obj
    [ ("carousel", Json.obj
        [ ("enabled", Json.bool true),
          ("apps", Json.arr [Json.obj [("app", Json.str "a"), ("duration", Json.num 1)]]),
          ("index", Json.num 5) ]) ]

/-- A concrete state whose carousel playlist names an unregistered program
`u` in its next entry, with rotation due. -/
def exC9 : MState :=
  { current_app := some ⟨[], false⟩, current_app_name := some "a",
    available_apps := ["a"], app_configs := [], settings := [],
    carousel_enabled := true,
    carousel_apps := [⟨"a", 1⟩, ⟨"u", 1⟩],
    carousel_index := 0, carousel_timer := 0, last_carousel_time := 0,
    running := true, driver_brightness := 100, disk := none }

/-- A concrete running state used to instantiate the universally quantified
theorems: program `clock` active with config `{x: 1}`. -/
def exRun : MState :=
  { current_app := some ⟨[("x", Json.num 1)], false⟩,
    current_app_name := some "clock",
    available_apps := ["clock"], app_configs := [], settings := [],
    carousel_enabled := false, carousel_apps := [],
    carousel_index := 0, carousel_timer := 0, last_carousel_time := 0,
    running := true, driver_brightness := 100, disk := none }

/-- A concrete manager state with every snapshot field populated, used to
instantiate the persistence round-trip. -/
def exC7 : MState :=
  { current_app := some ⟨[("x", Json.num 1)], false⟩,
    current_app_name := some "clock",
    available_apps := ["clock", "stars"],
    app_configs := [("clock", [("x", Json.num 1)]), ("stars", [])],
    settings := [("brightness", Json.num 50)],
    carousel_enabled := true,
    carousel_apps := [⟨"clock", 30⟩, ⟨"stars", 15⟩],
    carousel_index := 1, carousel_timer := 0, last_carousel_time := 0,
    running := true, driver_brightness := 50, disk := none }

/-! Helper lemmas about the dictionary operations and the model. -/

theorem dget_dset_self (d : Config) (k : String) (v : Json) :
    dget (dset d k v) k = some v := by
  induction d with
  | nil => simp [dset, dget]
  | cons hd tl ih =>
    obtain ⟨k', v'⟩ := hd
    by_cases h : k' = k
    · simp [dset, dget, h]
    · simp [dset, dget, h, ih]

theorem cget_cset_self (d : List (String × Config)) (k : String) (v : Config) :
    cget (cset d k v) k = some v := by
  induction d with
  | nil => simp [cset, cget]
  | cons hd tl ih =>
    obtain ⟨k', v'⟩ := hd
    by_cases h : k' = k
    · simp [cset, cget, h]
    · simp [cset, cget, h, ih]

/-- C1: claimed — `save_state` is atomic in the write-then-publish sense:
the file is always either the complete previous snapshot or the complete
new snapshot.  Refuted: `open(file, "w")` truncates in place and
`json.dump` streams into it, so a failure after one character leaves a
one-character file that is neither the previous snapshot (here: the
complete serialized snapshot of a stopped manager) nor the new one. -/
theorem C1_counterexample :
    ¬ ((save_state_write exRun 1).2.1 = (render (encodeState exC3)).data ∨
       (save_state_write exRun 1).2.1 = (render (encodeState exRun)).data) := by
  decide

/-- C1 amended: a `save_state` write leaves the in-memory manager state
unchanged and leaves on disk a prefix of the new serialized snapshot — the
complete snapshot when the write succeeds, a possibly partial prefix (not
the previous snapshot) when it fails mid-write. -/
theorem C1_amended (st : MState) (budget : Nat) :
    (save_state_write st budget).1 = st ∧
    (save_state_write st budget).2.1 <+: (render (encodeState st)).data ∧
    ((save_state_write st budget).2.2 = true →
      (save_state_write st budget).2.1 = (render (encodeState st)).data) := by
  unfold save_state_write
  dsimp only
  split
  · exact ⟨rfl, List.prefix_refl _, fun _ => rfl⟩
  · exact ⟨rfl, List.take_prefix _ _, fun hh => Bool.noConfusion hh⟩

theorem C1_amended_witness :
    (save_state_write exRun 3).1 = exRun ∧
    (save_state_write exRun 3).2.1 <+: (render (encodeState exRun)).data ∧
    ((save_state_write exRun 3).2.2 = true →
      (save_state_write exRun 3).2.1 = (render (encodeState exRun)).data) :=
  C1_amended exRun 3

/-- C6: claimed — a `SetSettings` brightness is clamped to [0,100] before
being applied to the driver and before being stored.  Refuted: the handler
(src/manager.py:221-228) stores and forwards the raw value; with the
hardware driver the driver register also receives the raw 150. -/
theorem C6_counterexample :
    dget (process_command hwSetBrightness 0 true (init_state 0 none)
            (Command.settings 150)).settings "brightness"
        = some (Json.num 150) ∧
    (process_command hwSetBrightness 0 true (init_state 0 none)
        (Command.settings 150)).driver_brightness = 150 ∧
    ¬ ((150 : Int) ≤ 100) :=
  ⟨rfl, rfl, by decide⟩

/-- C6 amended: the manager stores the raw brightness value in the
persisted settings and passes the raw value to the driver; only the
simulated driver clamps it to [0,100] inside its own `set_brightness`
(the hardware driver applies it unclamped). -/
theorem C6_amended (st : MState) (now : Int) (ok : Bool) (b : Int) :
    (process_command simSetBrightness now ok st (Command.settings b)).driver_brightness
        = max 0 (min 100 b) ∧
    0 ≤ (process_command simSetBrightness now ok st
          (Command.settings b)).driver_brightness ∧
    (process_command simSetBrightness now ok st
        (Command.settings b)).driver_brightness ≤ 100 ∧
    dget (process_command simSetBrightness now ok st
            (Command.settings b)).settings "brightness" = some (Json.num b) ∧
    (process_command hwSetBrightness now ok st
        (Command.settings b)).driver_brightness = b := by
  refine ⟨rfl, ?_, ?_, ?_, rfl⟩
  · show (0 : Int) ≤ max 0 (min 100 b)
    exact le_max_left 0 (min 100 b)
  · show max 0 (min 100 b) ≤ (100 : Int)
    exact max_le (by norm_num) (min_le_left 100 b)
  · show dget (dset st.settings "brightness" (Json.num b)) "brightness"
        = some (Json.num b)
    exact dget_dset_self st.settings "brightness" (Json.num b)

/-- C10: after a `loop()` crash is handled, `get_current_app_name()` still
returns the crashed program's name even though no instance is active, and
a subsequent snapshot save persists `last_app` equal to that name. -/
theorem C10_crash_keeps_name (st : MState) (a : AppInstance) (n : String)
    (h1 : st.current_app = some a) (h2 : st.current_app_name = some n) :
    get_current_app_name (advance_tick st true) = some n ∧
    (advance_tick st true).current_app = none ∧
    diskLastApp (save_state (advance_tick st true)) = some (Json.str n) := by
  simp only [advance_tick, h1, if_pos, stop_current_app, h2]
  refine ⟨rfl, rfl, ?_⟩
  simp [diskLastApp, save_state, encodeState, dget, h2]

theorem C10_crash_keeps_name_witness :
    get_current_app_name (advance_tick exRun true) = some "clock" ∧
    (advance_tick exRun true).current_app = none ∧
    diskLastApp (save_state (advance_tick exRun true)) = some (Json.str "clock") :=
  C10_crash_keeps_name exRun ⟨[("x", Json.num 1)], false⟩ "clock" rfl rfl

/-- C3: claimed — processing `Stop` in *every* manager state clears
`current_app_name` and persists a snapshot with `last_program = none`.
Refuted: `stop_current_app` does nothing when no instance is active
(src/manager.py:118), so in the post-crash state `exC3` (no instance, name
still `"clock"`) the `Stop` command leaves the name set and writes
nothing. -/
theorem C3_counterexample :
    (process_command simSetBrightness 0 true exC3 Command.stop).current_app_name
        = some "clock" ∧
    (process_command simSetBrightness 0 true exC3 Command.stop).disk = none :=
  ⟨rfl, rfl⟩

/-- C3 amended: when an instance is active, `Stop` stops it, clears both
`current_app` and `current_app_name`, and persists a snapshot whose
`last_app` is null; when no instance is active, `Stop` is a complete no-op
(in particular it does not clear a post-crash `current_app_name`).  Among
command dispatches with succeeding setups, only `Stop` ever clears
`current_app_name`. -/
theorem C3_amended (drv : Int → Int) (now : Int) (ok : Bool) (st : MState)
    (a : AppInstance) (h : st.current_app = some a) :
    (process_command drv now ok st Command.stop).current_app = none ∧
    (process_command drv now ok st Command.stop).current_app_name = none ∧
    diskLastApp (process_command drv now ok st Command.stop) = some Json.null ∧
    (∀ st₀ : MState, st₀.current_app = none →
      process_command drv now ok st₀ Command.stop = st₀) ∧
    (∀ (st₀ : MState) (cmd : Command), cmd ≠ Command.stop →
      (process_command drv now true st₀ cmd).current_app_name = none →
      st₀.current_app_name = none) := by
  refine ⟨?_, ?_, ?_, ?_, ?_⟩
  · cases hn : st.current_app_name <;>
      simp [process_command, stop_current_app, h, hn, save_state]
  · cases hn : st.current_app_name <;>
      simp [process_command, stop_current_app, h, hn, save_state]
  · cases hn : st.current_app_name <;>
      simp [process_command, stop_current_app, h, hn, save_state, diskLastApp,
            encodeState, dget]
  · intro st₀ h0
    simp [process_command, stop_current_app, h0]
  · intro st₀ cmd hne hname
    cases cmd with
    | stop => exact absurd rfl hne
    | quit => simpa [process_command] using hname
    | settings b => simpa [process_command, save_state] using hname
    | config key value =>
      cases hc : st₀.current_app with
      | none => simpa [process_command, hc] using hname
      | some a0 =>
        cases hn : st₀.current_app_name <;>
          simp_all [process_command, hc, save_state]
    | update_app_config app cfg =>
      by_cases hav : app ∈ st₀.available_apps
      · by_cases hn : st₀.current_app_name = some app
        · cases hc : st₀.current_app <;>
            simp_all [process_command, hav, save_state]
        · simp_all [process_command, hav, save_state]
      · simpa [process_command, hav] using hname
    | switch app cfg =>
      by_cases hav : app ∈ st₀.available_apps
      · exfalso
        revert hname
        simp [process_command, switch_app, start_app, hav]
        cases hc : st₀.current_app <;>
          cases hn : st₀.current_app_name <;>
            simp [stop_current_app, hc, hn, save_state]
      · simpa [process_command, switch_app, start_app, hav] using hname
    | carousel en apps =>
      cases apps with
      | nil =>
        cases en <;> simpa [process_command, save_state] using hname
      | cons e rest =>
        cases en with
        | false => simpa [process_command, save_state] using hname
        | true =>
          by_cases hav : e.app ∈ st₀.available_apps
          · exfalso
            revert hname
            cases hc : st₀.current_app <;>
              cases hn : st₀.current_app_name <;>
                simp [process_command, start_app, stop_current_app, hav, hc, hn,
                      save_state]
          · revert hname
            simp [process_command, start_app, hav, save_state]

theorem C3_amended_witness :
    (process_command simSetBrightness 0 true exRun Command.stop).current_app
        = none ∧
    (process_command simSetBrightness 0 true exRun Command.stop).current_app_name
        = none ∧
    diskLastApp (process_command simSetBrightness 0 true exRun Command.stop)
        = some Json.null ∧
    (∀ st₀ : MState, st₀.current_app = none →
      process_command simSetBrightness 0 true st₀ Command.stop = st₀) ∧
    (∀ (st₀ : MState) (cmd : Command), cmd ≠ Command.stop →
      (process_command simSetBrightness 0 true st₀ cmd).current_app_name = none →
      st₀.current_app_name = none) :=
  C3_amended simSetBrightness 0 true exRun ⟨[("x", Json.num 1)], false⟩ rfl

theorem pyIdx_isSome_of_bounds (l : List CEntry) (i : Int)
    (h0 : 0 ≤ i) (h1 : i < (l.length : Int)) :
    ∃ e, pyIdx l i = some e := by
  unfold pyIdx
  rw [if_pos ⟨h0, h1⟩]
  have hlt : i.toNat < l.length := by omega
  exact ⟨l.get ⟨i.toNat, hlt⟩, List.get?_eq_get hlt⟩

theorem carousel_tick_isSome (now : Int) (ok : Bool) (st : MState)
    (hinv : carousel_inv st) : ∃ st', carousel_tick now ok st = some st' := by
  unfold carousel_tick
  by_cases hen : st.carousel_enabled = true ∧ st.carousel_apps ≠ []
  · obtain ⟨hi0, hilen⟩ := hinv hen.1 hen.2
    obtain ⟨cur, hcur⟩ := pyIdx_isSome_of_bounds _ _ hi0 hilen
    rw [if_pos hen, hcur]
    dsimp only
    by_cases hd : cur.duration ≤ now - st.last_carousel_time
    · have hlen : 0 < (st.carousel_apps.length : Int) := by
        have := List.length_pos.mpr hen.2
        omega
      have h0' : 0 ≤ (st.carousel_index + 1) % (st.carousel_apps.length : Int) :=
        Int.emod_nonneg _ (by omega)
      have h1' : (st.carousel_index + 1) % (st.carousel_apps.length : Int)
          < (st.carousel_apps.length : Int) :=
        Int.emod_lt_of_pos _ hlen
      obtain ⟨nxt, hnxt⟩ := pyIdx_isSome_of_bounds _ _ h0' h1'
      rw [if_pos hd, hnxt]
      exact ⟨_, rfl⟩
    · rw [if_neg hd]
      exact ⟨st, rfl⟩
  · rw [if_neg hen]
    exact ⟨st, rfl⟩

/-- C4: a `loop()` crash is confined to the crashed instance: the run loop
survives the tick, the active instance becomes none, nothing is persisted
by the crash handling (the disk is untouched), `current_app_name` is not
cleared, the loop's continue flag is untouched, and a subsequent `Switch`
to any registered program (whose setup succeeds) returns success. -/
theorem C4_crash_isolation (drv : Int → Int) (now : Int) (st : MState)
    (a : AppInstance) (h : st.current_app = some a) (hinv : carousel_inv st) :
    (∃ st'', run_tick drv now true [] true st = some st'') ∧
    (advance_tick st true).current_app = none ∧
    (advance_tick st true).current_app_name = st.current_app_name ∧
    (advance_tick st true).disk = st.disk ∧
    (advance_tick st true).running = st.running ∧
    ∀ (name : String) (cfg : Config),
      name ∈ (advance_tick st true).available_apps →
      (switch_app (advance_tick st true) name cfg true).2 = true := by
  have hcar := carousel_tick_isSome now true st hinv
  refine ⟨?_, ?_, ?_, ?_, ?_, ?_⟩
  · obtain ⟨st2, hst2⟩ := hcar
    exact ⟨advance_tick st2 true, by simp [run_tick, process_commands, hst2]⟩
  · cases hn : st.current_app_name <;>
      simp [advance_tick, h, stop_current_app, hn]
  · cases hn : st.current_app_name <;>
      simp [advance_tick, h, stop_current_app, hn]
  · cases hn : st.current_app_name <;>
      simp [advance_tick, h, stop_current_app, hn]
  · cases hn : st.current_app_name <;>
      simp [advance_tick, h, stop_current_app, hn]
  · intro name cfg hmem
    have hnone : (advance_tick st true).current_app = none := by
      cases hn : st.current_app_name <;>
        simp [advance_tick, h, stop_current_app, hn]
    simp [switch_app, start_app, hmem, hnone]

theorem C4_crash_isolation_witness :
    (∃ st'', run_tick simSetBrightness 0 true [] true exRun = some st'') ∧
    (advance_tick exRun true).current_app = none ∧
    (advance_tick exRun true).current_app_name = exRun.current_app_name ∧
    (advance_tick exRun true).disk = exRun.disk ∧
    (advance_tick exRun true).running = exRun.running ∧
    ∀ (name : String) (cfg : Config),
      name ∈ (advance_tick exRun true).available_apps →
      (switch_app (advance_tick exRun true) name cfg true).2 = true :=
  C4_crash_isolation simSetBrightness 0 exRun ⟨[("x", Json.num 1)], false⟩ rfl
    (by intro h1 h2; simp [exRun] at h1)

/-! Frame lemmas: the lifecycle helpers never touch the carousel fields,
and `start_app` (unlike `switch_app`) never writes the state file. -/

@[simp] theorem stop_current_app_enabled (st : MState) (sv : Bool) :
    (stop_current_app st sv).carousel_enabled = st.carousel_enabled := by
  cases hc : st.current_app <;> cases hn : st.current_app_name <;> cases sv <;>
    simp [stop_current_app, hc, hn, save_state]

@[simp] theorem stop_current_app_apps (st : MState) (sv : Bool) :
    (stop_current_app st sv).carousel_apps = st.carousel_apps := by
  cases hc : st.current_app <;> cases hn : st.current_app_name <;> cases sv <;>
    simp [stop_current_app, hc, hn, save_state]

@[simp] theorem stop_current_app_index (st : MState) (sv : Bool) :
    (stop_current_app st sv).carousel_index = st.carousel_index := by
  cases hc : st.current_app <;> cases hn : st.current_app_name <;> cases sv <;>
    simp [stop_current_app, hc, hn, save_state]

@[simp] theorem stop_current_app_false_disk (st : MState) :
    (stop_current_app st false).disk = st.disk := by
  cases hc : st.current_app <;> cases hn : st.current_app_name <;>
    simp [stop_current_app, hc, hn]

@[simp] theorem start_app_enabled (st : MState) (name : String) (cfg : Config)
    (ok : Bool) :
    (start_app st name cfg ok).1.carousel_enabled = st.carousel_enabled := by
  by_cases hav : name ∈ st.available_apps <;> cases hc : st.current_app <;>
    cases ok <;> simp [start_app, hav, hc]

@[simp] theorem start_app_apps (st : MState) (name : String) (cfg : Config)
    (ok : Bool) :
    (start_app st name cfg ok).1.carousel_apps = st.carousel_apps := by
  by_cases hav : name ∈ st.available_apps <;> cases hc : st.current_app <;>
    cases ok <;> simp [start_app, hav, hc]

@[simp] theorem start_app_index (st : MState) (name : String) (cfg : Config)
    (ok : Bool) :
    (start_app st name cfg ok).1.carousel_index = st.carousel_index := by
  by_cases hav : name ∈ st.available_apps <;> cases hc : st.current_app <;>
    cases ok <;> simp [start_app, hav, hc]

@[simp] theorem start_app_disk (st : MState) (name : String) (cfg : Config)
    (ok : Bool) :
    (start_app st name cfg ok).1.disk = st.disk := by
  by_cases hav : name ∈ st.available_apps <;> cases hc : st.current_app <;>
    cases ok <;> simp [start_app, hav, hc]

@[simp] theorem switch_app_enabled (st : MState) (name : String) (cfg : Config)
    (ok : Bool) :
    (switch_app st name cfg ok).1.carousel_enabled = st.carousel_enabled := by
  rcases hs : start_app st name cfg ok with ⟨st1, success⟩
  have h1 : st1.carousel_enabled = st.carousel_enabled := by
    have := start_app_enabled st name cfg ok
    rw [hs] at this
    exact this
  cases success <;> cases hn : st1.current_app_name <;>
    cases hc : st1.current_app <;>
      simp [switch_app, hs, hn, hc, save_state, h1]

@[simp] theorem switch_app_apps (st : MState) (name : String) (cfg : Config)
    (ok : Bool) :
    (switch_app st name cfg ok).1.carousel_apps = st.carousel_apps := by
  rcases hs : start_app st name cfg ok with ⟨st1, success⟩
  have h1 : st1.carousel_apps = st.carousel_apps := by
    have := start_app_apps st name cfg ok
    rw [hs] at this
    exact this
  cases success <;> cases hn : st1.current_app_name <;>
    cases hc : st1.current_app <;>
      simp [switch_app, hs, hn, hc, save_state, h1]

@[simp] theorem switch_app_index (st : MState) (name : String) (cfg : Config)
    (ok : Bool) :
    (switch_app st name cfg ok).1.carousel_index = st.carousel_index := by
  rcases hs : start_app st name cfg ok with ⟨st1, success⟩
  have h1 : st1.carousel_index = st.carousel_index := by
    have := start_app_index st name cfg ok
    rw [hs] at this
    exact this
  cases success <;> cases hn : st1.current_app_name <;>
    cases hc : st1.current_app <;>
      simp [switch_app, hs, hn, hc, save_state, h1]

/-- C5: claimed — the carousel index is always a valid playlist index, in
every reachable state *including* one restored by `load_state` from a state
file.  Refuted: `load_state` (src/manager.py:370) adopts the persisted
`index` without validating it against the playlist length, so a file with
`index = 5` over a one-entry enabled playlist loads into a state violating
the invariant. -/
theorem C5_counterexample :
    ¬ carousel_inv (load_state simSetBrightness 0 (init_state 0 (some exC5file))).1 := by
  intro h
  have := h (by decide) (by decide)
  revert this
  decide

/-- C5 amended: the invariant holds across all command dispatches and
carousel rotations (and an enabled carousel with an empty playlist never
rotates); it is only `load_state`'s unvalidated adoption of the persisted
index that can break it. -/
theorem C5_amended (drv : Int → Int) (now : Int) (ok : Bool) (st : MState)
    (cmd : Command) (h : carousel_inv st) :
    carousel_inv (process_command drv now ok st cmd) ∧
    (∀ st', carousel_tick now ok st = some st' → carousel_inv st') ∧
    (st.carousel_apps = [] → carousel_tick now ok st = some st) := by
  refine ⟨?_, ?_, ?_⟩
  · cases cmd with
    | switch app cfg =>
      intro h1 h2
      rw [show (process_command drv now ok st (Command.switch app cfg))
            = (switch_app st app cfg ok).1 from rfl] at h1 h2 ⊢
      simp only [switch_app_enabled, switch_app_apps, switch_app_index] at h1 h2 ⊢
      exact h h1 h2
    | stop =>
      intro h1 h2
      rw [show (process_command drv now ok st Command.stop)
            = stop_current_app st true from rfl] at h1 h2 ⊢
      simp only [stop_current_app_enabled, stop_current_app_apps,
                 stop_current_app_index] at h1 h2 ⊢
      exact h h1 h2
    | config key value =>
      cases hc : st.current_app with
      | none =>
        intro h1 h2
        rw [show (process_command drv now ok st (Command.config key value)) = st by
              simp [process_command, hc]] at h1 h2 ⊢
        exact h h1 h2
      | some a =>
        intro h1 h2
        cases hn : st.current_app_name <;>
          simp_all [process_command, hc, save_state] <;> exact h h1 h2
    | update_app_config app cfg =>
      by_cases hav : app ∈ st.available_apps
      · by_cases hn : st.current_app_name = some app
        · cases hc : st.current_app <;>
            · intro h1 h2
              simp_all [process_command, hav, hn, hc, save_state]
              exact h h1 h2
        · intro h1 h2
          simp_all [process_command, hav, hn, save_state]
          exact h h1 h2
      · intro h1 h2
        simp_all [process_command, hav]
        exact h h1 h2
    | settings b =>
      intro h1 h2
      simp_all [process_command, save_state]
      exact h h1 h2
    | quit =>
      intro h1 h2
      simp_all [process_command]
      exact h h1 h2
    | carousel en apps =>
      intro h1 h2
      cases en with
      | false => simp [process_command, save_state] at h1
      | true =>
        cases apps with
        | nil => simp [process_command, save_state] at h2
        | cons e rest =>
          have hidx : (process_command drv now ok st
              (Command.carousel true (e :: rest))).carousel_index = 0 := by
            simp [process_command, save_state]
          have happs : (process_command drv now ok st
              (Command.carousel true (e :: rest))).carousel_apps = e :: rest := by
            simp [process_command, save_state]
          rw [hidx, happs]
          have hl : 0 < (e :: rest).length := by simp
          exact ⟨le_refl 0, by omega⟩
  · intro st' hst'
    unfold carousel_tick at hst'
    by_cases hen : st.carousel_enabled = true ∧ st.carousel_apps ≠ []
    · rw [if_pos hen] at hst'
      obtain ⟨hi0, hilen⟩ := h hen.1 hen.2
      obtain ⟨cur, hcur⟩ := pyIdx_isSome_of_bounds _ _ hi0 hilen
      rw [hcur] at hst'
      dsimp only at hst'
      by_cases hd : cur.duration ≤ now - st.last_carousel_time
      · rw [if_pos hd] at hst'
        have hlen : 0 < (st.carousel_apps.length : Int) := by
          have := List.length_pos.mpr hen.2
          omega
        have h0' : 0 ≤ (st.carousel_index + 1) % (st.carousel_apps.length : Int) :=
          Int.emod_nonneg _ (by omega)
        have h1' : (st.carousel_index + 1) % (st.carousel_apps.length : Int)
            < (st.carousel_apps.length : Int) :=
          Int.emod_lt_of_pos _ hlen
        obtain ⟨nxt, hnxt⟩ := pyIdx_isSome_of_bounds _ _ h0' h1'
        rw [hnxt] at hst'
        dsimp only at hst'
        obtain rfl := Option.some.inj hst'
        intro _ h2
        simp only [start_app_index, start_app_apps] at h2 ⊢
        exact ⟨h0', h1'⟩
      · rw [if_neg hd] at hst'
        obtain rfl := Option.some.inj hst'
        exact h
    · rw [if_neg hen] at hst'
      obtain rfl := Option.some.inj hst'
      exact h
  · intro hempty
    unfold carousel_tick
    rw [if_neg (by simp [hempty])]

theorem C5_amended_witness :
    carousel_inv (process_command simSetBrightness 0 true exC2 Command.stop) ∧
    (∀ st', carousel_tick 0 true exC2 = some st' → carousel_inv st') ∧
    (exC2.carousel_apps = [] → carousel_tick 0 true exC2 = some exC2) :=
  C5_amended simSetBrightness 0 true exC2 Command.stop
    (by intro _ _; exact ⟨by decide, by decide⟩)

theorem encodeState_save (st : MState) :
    encodeState (save_state st) = encodeState st := rfl

/-- C2: claimed — a due carousel rotation produces exactly the state (disk
included) that processing a `Switch` command for the next playlist entry
would produce.  Refuted on a two-entry playlist with rotation due: the
rotation advances `carousel_index` to 1 and writes nothing to disk, while
the `Switch` dispatch leaves the index at 0, records the new program's
config, and persists a snapshot. -/
theorem C2_counterexample :
    carousel_tick 5 true exC2
      ≠ some (process_command simSetBrightness 5 true exC2
                (Command.switch "b" (get_app_config exC2 "b"))) := by
  intro h
  exact absurd
    (congrArg (fun o => (Option.map MState.carousel_index o).getD 7) h)
    (by decide)

/-- C2 amended: a due carousel rotation starts the next entry's program
through the very `start_app` a `Switch` dispatch uses, with that program's
remembered config, but additionally advances the index and resets the
rotation timestamp, and — unlike a `Switch` dispatch, which always persists
the post-switch snapshot — writes nothing to disk. -/
theorem C2_amended (now : Int) (ok : Bool) (st : MState) (cur nxt : CEntry)
    (hen : st.carousel_enabled = true) (hne : st.carousel_apps ≠ [])
    (hcur : pyIdx st.carousel_apps st.carousel_index = some cur)
    (hd : cur.duration ≤ now - st.last_carousel_time)
    (hnxt : pyIdx st.carousel_apps
        ((st.carousel_index + 1) % (st.carousel_apps.length : Int)) = some nxt) :
    carousel_tick now ok st
      = some { (start_app
            { st with carousel_index :=
                (st.carousel_index + 1) % (st.carousel_apps.length : Int) }
            nxt.app (get_app_config st nxt.app) ok).1
          with last_carousel_time := now } ∧
    (∀ st', carousel_tick now ok st = some st' → st'.disk = st.disk) ∧
    (∀ (drv : Int → Int) (cfg : Config), nxt.app ∈ st.available_apps →
      (process_command drv now true st (Command.switch nxt.app cfg)).disk
        = some (encodeState
            (process_command drv now true st (Command.switch nxt.app cfg)))) := by
  have hrot : carousel_tick now ok st
      = some { (start_app
            { st with carousel_index :=
                (st.carousel_index + 1) % (st.carousel_apps.length : Int) }
            nxt.app (get_app_config st nxt.app) ok).1
          with last_carousel_time := now } := by
    unfold carousel_tick
    rw [if_pos ⟨hen, hne⟩, hcur]
    dsimp only
    rw [if_pos hd, hnxt]
    rfl
  refine ⟨hrot, ?_, ?_⟩
  · intro st' hst'
    rw [hrot] at hst'
    obtain rfl := Option.some.inj hst'
    show (start_app _ _ _ _).1.disk = st.disk
    rw [start_app_disk]
  · intro drv cfg hav
    show (switch_app st nxt.app cfg true).1.disk
        = some (encodeState (switch_app st nxt.app cfg true).1)
    rcases hc : st.current_app with _ | a <;>
      simp [switch_app, start_app, hav, hc, stop_current_app, save_state]
    all_goals rfl

theorem C2_amended_witness :
    carousel_tick 5 true exC2
      = some { (start_app
            { exC2 with carousel_index :=
                (exC2.carousel_index + 1) % (exC2.carousel_apps.length : Int) }
            (⟨"b", 1⟩ : CEntry).app
            (get_app_config exC2 (⟨"b", 1⟩ : CEntry).app) true).1
          with last_carousel_time := 5 } ∧
    (∀ st', carousel_tick 5 true exC2 = some st' → st'.disk = exC2.disk) ∧
    (∀ (drv : Int → Int) (cfg : Config),
        (⟨"b", 1⟩ : CEntry).app ∈ exC2.available_apps →
      (process_command drv 5 true exC2
          (Command.switch (⟨"b", 1⟩ : CEntry).app cfg)).disk
        = some (encodeState
            (process_command drv 5 true exC2
              (Command.switch (⟨"b", 1⟩ : CEntry).app cfg)))) :=
  C2_amended 5 true exC2 ⟨"a", 1⟩ ⟨"b", 1⟩ rfl (by decide) (by decide)
    (by decide) (by decide)

/-- C9: claimed — a `Switch` or carousel rotation naming an unregistered
program changes nothing at all, the carousel state included.  Refuted for
the rotation: with playlist `[a, u]` and `u` unregistered, the due rotation
leaves the active program and the disk alone but still advances
`carousel_index` from 0 to 1 (and resets the rotation timestamp). -/
theorem C9_counterexample :
    (carousel_tick 5 true exC9).map MState.carousel_index
      ≠ some exC9.carousel_index := by
  decide

/-- C9 amended: a `Switch` command naming an unregistered program is a
complete no-op (the manager state, the active program and the disk are
returned unchanged, without stopping the running program); a carousel
rotation to an unregistered name likewise keeps the active program, the
configs and the disk, but still advances the carousel index and resets the
rotation timestamp. -/
theorem C9_amended (drv : Int → Int) (now : Int) (ok : Bool) (st : MState)
    (name : String) (cfg : Config) (cur nxt : CEntry)
    (hav : name ∉ st.available_apps)
    (hen : st.carousel_enabled = true) (hne : st.carousel_apps ≠ [])
    (hcur : pyIdx st.carousel_apps st.carousel_index = some cur)
    (hd : cur.duration ≤ now - st.last_carousel_time)
    (hnxt : pyIdx st.carousel_apps
        ((st.carousel_index + 1) % (st.carousel_apps.length : Int)) = some nxt)
    (hnav : nxt.app ∉ st.available_apps) :
    process_command drv now ok st (Command.switch name cfg) = st ∧
    carousel_tick now ok st
      = some { st with
          carousel_index :=
            (st.carousel_index + 1) % (st.carousel_apps.length : Int),
          last_carousel_time := now } := by
  constructor
  · show (switch_app st name cfg ok).1 = st
    simp [switch_app, start_app, hav]
  · unfold carousel_tick
    rw [if_pos ⟨hen, hne⟩, hcur]
    dsimp only
    rw [if_pos hd, hnxt]
    dsimp only
    rw [show start_app
          { st with carousel_index :=
              (st.carousel_index + 1) % (st.carousel_apps.length : Int) }
          nxt.app (get_app_config
            { st with carousel_index :=
                (st.carousel_index + 1) % (st.carousel_apps.length : Int) }
            nxt.app) ok
        = ({ st with carousel_index :=
              (st.carousel_index + 1) % (st.carousel_apps.length : Int) }, false) by
      simp [start_app, hnav]]

theorem C9_amended_witness :
    process_command simSetBrightness 5 true exC9 (Command.switch "u" []) = exC9 ∧
    carousel_tick 5 true exC9
      = some { exC9 with
          carousel_index :=
            (exC9.carousel_index + 1) % (exC9.carousel_apps.length : Int),
          last_carousel_time := 5 } :=
  C9_amended simSetBrightness 5 true exC9 "u" [] ⟨"a", 1⟩ ⟨"u", 1⟩
    (by decide) rfl (by decide) (by decide) (by decide) (by decide) (by decide)

theorem decodeConfigs_encode (l : List (String × Config)) :
    decodeConfigs (Json.obj (l.map fun nc => (nc.1, Json.obj nc.2))) = l := by
  induction l with
  | nil => rfl
  | cons hd tl ih =>
    simp only [decodeConfigs, List.map_cons, List.map_map] at ih ⊢
    simpa [asObj] using ih

theorem decodeCEntry_encode (e : CEntry) : decodeCEntry (encodeCEntry e) = e := by
  cases e
  simp [decodeCEntry, encodeCEntry, dget]

theorem decode_entries (l : List CEntry) :
    (l.map encodeCEntry).map decodeCEntry = l := by
  induction l with
  | nil => rfl
  | cons hd tl ih => simp [decodeCEntry_encode, ih]

theorem decode_entries_comp (l : List CEntry) :
    List.map (decodeCEntry ∘ encodeCEntry) l = l := by
  rw [← List.map_map]
  exact decode_entries l

/-- C7: the save-then-load round trip is lossless: for any manager state
with valid settings (empty, or containing the `brightness` key, per the
spec's GlobalSettings model), loading the file `save_state` wrote into a
fresh manager returns the saved `last_app` and per-program configs and
restores the saved settings and carousel configuration exactly. -/
theorem C7_roundtrip (drv : Int → Int) (now2 : Int) (st : MState)
    (hs : valid_settings st.settings) :
    (load_state drv now2 (init_state now2 (save_state st).disk)).2.1
        = st.current_app_name ∧
    (load_state drv now2 (init_state now2 (save_state st).disk)).2.2
        = st.app_configs ∧
    (load_state drv now2 (init_state now2 (save_state st).disk)).1.settings
        = st.settings ∧
    (load_state drv now2 (init_state now2 (save_state st).disk)).1.carousel_enabled
        = st.carousel_enabled ∧
    (load_state drv now2 (init_state now2 (save_state st).disk)).1.carousel_apps
        = st.carousel_apps ∧
    (load_state drv now2 (init_state now2 (save_state st).disk)).1.carousel_index
        = st.carousel_index := by
  rcases hs with hs | hs
  · cases hn : st.current_app_name <;>
      simp [load_state, init_state, save_state, encodeState, dget, hn, hs,
            dmember, decodeConfigs_encode, decode_entries_comp, asObj]
  · cases hn : st.current_app_name <;>
      simp [load_state, init_state, save_state, encodeState, dget, hn, hs,
            decodeConfigs_encode, decode_entries_comp, asObj]

theorem C7_roundtrip_witness :
    (load_state simSetBrightness 7 (init_state 7 (save_state exC7).disk)).2.1
        = exC7.current_app_name ∧
    (load_state simSetBrightness 7 (init_state 7 (save_state exC7).disk)).2.2
        = exC7.app_configs ∧
    (load_state simSetBrightness 7 (init_state 7 (save_state exC7).disk)).1.settings
        = exC7.settings ∧
    (load_state simSetBrightness 7 (init_state 7 (save_state exC7).disk)).1.carousel_enabled
        = exC7.carousel_enabled ∧
    (load_state simSetBrightness 7 (init_state 7 (save_state exC7).disk)).1.carousel_apps
        = exC7.carousel_apps ∧
    (load_state simSetBrightness 7 (init_state 7 (save_state exC7).disk)).1.carousel_index
        = exC7.carousel_index :=
  C7_roundtrip simSetBrightness 7 exC7 (Or.inr rfl)

theorem register_app_current (st : MState) (x : String) :
    (register_app st x).current_app = st.current_app := by
  by_cases h : x ∈ st.available_apps <;> simp [register_app, h]

theorem register_app_configs (st : MState) (x : String) :
    (register_app st x).app_configs = st.app_configs := by
  by_cases h : x ∈ st.available_apps <;> simp [register_app, h]

theorem register_foldl_current (apps : List String) (st : MState) :
    (apps.foldl register_app st).current_app = st.current_app := by
  induction apps generalizing st with
  | nil => rfl
  | cons x xs ih => rw [List.foldl_cons, ih, register_app_current]

theorem register_foldl_configs (apps : List String) (st : MState) :
    (apps.foldl register_app st).app_configs = st.app_configs := by
  induction apps generalizing st with
  | nil => rfl
  | cons x xs ih => rw [List.foldl_cons, ih, register_app_configs]

theorem register_app_mem (st : MState) (x n : String)
    (h : n ∈ st.available_apps ∨ n = x) :
    n ∈ (register_app st x).available_apps := by
  by_cases hm : x ∈ st.available_apps
  · rw [register_app, if_pos hm]
    rcases h with h | rfl
    · exact h
    · exact hm
  · rw [register_app, if_neg hm]
    rcases h with h | rfl
    · exact List.mem_append_left _ h
    · exact List.mem_append_right _ (List.mem_singleton.mpr rfl)

theorem register_foldl_mem (apps : List String) (st : MState) (n : String)
    (h : n ∈ apps ∨ n ∈ st.available_apps) :
    n ∈ (apps.foldl register_app st).available_apps := by
  induction apps generalizing st with
  | nil =>
    rcases h with h | h
    · exact absurd h (List.not_mem_nil n)
    · exact h
  | cons x xs ih =>
    rw [List.foldl_cons]
    rcases h with h | h
    · rcases List.mem_cons.mp h with rfl | h
      · exact ih _ (Or.inr (register_app_mem _ _ _ (Or.inr rfl)))
      · exact ih _ (Or.inl h)
    · exact ih _ (Or.inr (register_app_mem _ _ _ (Or.inl h)))

/-- C8: when the run loop terminates without a user `Stop` while a program
is active, its config is captured into the per-program map and a snapshot
is persisted with `last_app` preserved (the active program's name); the
next `main` startup on that state file resumes the same program with that
saved configuration. -/
theorem C8_shutdown_resume (drv : Int → Int) (now2 : Int) (st : MState)
    (a : AppInstance) (n : String) (apps : List String) (argsApp : String)
    (h1 : st.current_app = some a) (h2 : st.current_app_name = some n)
    (h3 : n ≠ "") (h4 : n ∈ apps) :
    (shutdown_finalize st).current_app_name = some n ∧
    cget (shutdown_finalize st).app_configs n = some a.config ∧
    diskLastApp (shutdown_finalize st) = some (Json.str n) ∧
    (main_startup drv now2 (shutdown_finalize st).disk apps argsApp
        true).current_app_name = some n ∧
    (main_startup drv now2 (shutdown_finalize st).disk apps argsApp
        true).current_app = some ⟨a.config, false⟩ := by
  have hSname : (shutdown_finalize st).current_app_name = some n := by
    simp [shutdown_finalize, h1, h2, stop_current_app, save_state]
  have hScfg : cget (shutdown_finalize st).app_configs n = some a.config := by
    simp [shutdown_finalize, h1, h2, stop_current_app, save_state, cget_cset_self]
  have hSdisk : (shutdown_finalize st).disk
      = some (encodeState { st with app_configs := cset st.app_configs n a.config }) := by
    simp [shutdown_finalize, h1, h2, stop_current_app, save_state]
  have hlast : diskLastApp (shutdown_finalize st) = some (Json.str n) := by
    rw [diskLastApp, hSdisk]
    simp [encodeState, dget, h2]
  have hl1 : (load_state drv now2 (init_state now2
      (some (encodeState { st with app_configs := cset st.app_configs n a.config })))).2.1
      = some n := by
    simp [load_state, init_state, encodeState, dget, h2]
  have hl2 : (load_state drv now2 (init_state now2
      (some (encodeState { st with app_configs := cset st.app_configs n a.config })))).2.2
      = cset st.app_configs n a.config := by
    simp [load_state, init_state, encodeState, dget, decodeConfigs_encode]
  have hl3 : (load_state drv now2 (init_state now2
      (some (encodeState { st with app_configs := cset st.app_configs n a.config })))).1.current_app
      = none := by
    by_cases hb : (dget st.settings "brightness").isSome = true <;>
      simp [load_state, init_state, encodeState, dget, hb, asObj, dmember]
  rcases apps with _ | ⟨a0, rest⟩
  · exact absurd h4 (List.not_mem_nil n)
  refine ⟨hSname, hScfg, hlast, ?_, ?_⟩
  · rw [hSdisk]
    unfold main_startup
    dsimp only
    rw [hl1]
    dsimp only
    rw [if_pos ⟨h3, h4⟩]
    dsimp only
    rw [start_app]
    rw [if_pos (register_foldl_mem _ _ _ (Or.inl h4))]
    rw [show ((a0 :: rest).foldl register_app
        { (load_state drv now2 (init_state now2
            (some (encodeState { st with app_configs := cset st.app_configs n a.config })))).1 with
          app_configs := (load_state drv now2 (init_state now2
            (some (encodeState { st with app_configs := cset st.app_configs n a.config })))).2.2 }).current_app
        = none from (register_foldl_current _ _).trans hl3]
    rfl
  · rw [hSdisk]
    unfold main_startup
    dsimp only
    rw [hl1]
    dsimp only
    rw [if_pos ⟨h3, h4⟩]
    dsimp only
    rw [start_app]
    rw [if_pos (register_foldl_mem _ _ _ (Or.inl h4))]
    rw [show ((a0 :: rest).foldl register_app
        { (load_state drv now2 (init_state now2
            (some (encodeState { st with app_configs := cset st.app_configs n a.config })))).1 with
          app_configs := (load_state drv now2 (init_state now2
            (some (encodeState { st with app_configs := cset st.app_configs n a.config })))).2.2 }).current_app
        = none from (register_foldl_current _ _).trans hl3]
    rw [show get_app_config ((a0 :: rest).foldl register_app
        { (load_state drv now2 (init_state now2
            (some (encodeState { st with app_configs := cset st.app_configs n a.config })))).1 with
          app_configs := (load_state drv now2 (init_state now2
            (some (encodeState { st with app_configs := cset st.app_configs n a.config })))).2.2 }) n
        = a.config from by
      rw [get_app_config, register_foldl_configs]
      show (match cget (load_state drv now2 (init_state now2
          (some (encodeState { st with app_configs := cset st.app_configs n a.config })))).2.2 n with
        | some c => c
        | none => []) = a.config
      rw [hl2, cget_cset_self]]
    rfl

theorem C8_shutdown_resume_witness :
    (shutdown_finalize exRun).current_app_name = some "clock" ∧
    cget (shutdown_finalize exRun).app_configs "clock"
        = some ([("x", Json.num 1)] : Config) ∧
    diskLastApp (shutdown_finalize exRun) = some (Json.str "clock") ∧
    (main_startup simSetBrightness 9 (shutdown_finalize exRun).disk ["clock"]
        "clock" true).current_app_name = some "clock" ∧
    (main_startup simSetBrightness 9 (shutdown_finalize exRun).disk ["clock"]
        "clock" true).current_app = some ⟨[("x", Json.num 1)], false⟩ :=
  C8_shutdown_resume simSetBrightness 9 exRun ⟨[("x", Json.num 1)], false⟩
    "clock" ["clock"] "clock" rfl rfl (by decide) (by decide)

end Retro
